import Mathlib

/-!
Verification of the boot-image import coordination subsystem of
`src/provisioningserver/rpc/boot_images.py`.

The Python module exposes three operations: `import_boot_images`,
`list_boot_images` and `is_import_boot_images_running`, coordinated by a
process-wide single-flight lock (`concurrency.boot_images`).  The import job
itself (`_run_import`) runs on a background thread (`deferToThread`), inside
an environment-variable scoping guard (`environment_variables`).

Shallow embedding choices:
- The process environment is a total map `String → Option String` (absent
  variables map to `none`).
- Collaborators that live outside the given sources (the lock from
  `provisioningserver.concurrency`, the `environment_variables` guard from
  `provisioningserver.utils.env`, the credential-home resolver, the image
  synchronization engine and the `tftppath` directory lister) are modelled
  from the spec, as parameters or as explicitly spec-modelled definitions.
- Concurrency is modelled as an interleaving of atomic steps: each
  `import_boot_images` trigger is one atomic transition on the system state
  (the spec requires the check-acquire-schedule sequence to be atomic with
  respect to concurrent calls), and completion of the scheduled background
  job is a separate transition.
-/

namespace BootImages

/-- A boot-image source descriptor.  In the Python code a source is a dict
with a `url` key plus selection criteria that are opaque to this module
(only `source['url']` is ever read by `get_hosts_from_sources`; the whole
descriptor is passed through to the synchronization engine). -/
structure Source where
  url : String
  deriving Repr, DecidableEq

/-! ### Python 2 `urlparse` hostname extraction

`get_hosts_from_sources` relies on `urlparse(url).hostname` from the Python 2
standard library.  The fragment used here (scheme splitting, netloc
extraction, the `hostname` property of `ResultMixin`) is embedded below. -/

/-- Characters allowed in a URL scheme (`scheme_chars` in Python 2
`urlparse`): letters, digits, `+`, `-` and `.`. -/
def isSchemeChar (c : Char) : Bool :=
  c.isAlpha || c.isDigit || c == '+' || c == '-' || c == '.'

/-- Split a character list at the first `:`; `none` when there is no colon.
Models `url.find(':')` and the two slices around it. -/
def splitAtColon : List Char → Option (List Char × List Char)
  | [] => none
  | c :: cs =>
    if c == ':' then some ([], cs)
    else
      match splitAtColon cs with
      | some (pre, post) => some (c :: pre, post)
      | none => none

/-- Strip a leading `scheme:` from the URL, as Python 2 `urlsplit` does: the
scheme must be non-empty, consist of scheme characters only, and the rest
must not look like a bare port number (empty rest or a non-digit in it). -/
def stripScheme (cs : List Char) : List Char :=
  match splitAtColon cs with
  | some (pre, post) =>
    if pre.length > 0 && pre.all isSchemeChar &&
        (post.isEmpty || post.any (fun c => !c.isDigit)) then
      post
    else cs
  | none => cs

/-- The netloc is everything after `//` up to the first `/`, `?` or `#`
(Python 2 `_splitnetloc`). -/
def splitnetloc (cs : List Char) : List Char :=
  cs.takeWhile (fun c => c ≠ '/' && c ≠ '?' && c ≠ '#')

/-- The `hostname` property of Python 2 `urlparse.ResultMixin`: take the part
of the netloc after the last `@`; if it is a bracketed IPv6 literal take the
inside of the brackets; otherwise drop a `:port` suffix; lowercase; an empty
netloc yields `None`. -/
def hostnameOfNetloc (netloc : List Char) : Option String :=
  let nl := (netloc.reverse.takeWhile (fun c => c ≠ '@')).reverse
  if nl.contains '[' && nl.contains ']' then
    some (String.mk (((nl.takeWhile (fun c => c ≠ ']')).drop 1).map Char.toLower))
  else if nl.contains ':' then
    some (String.mk ((nl.takeWhile (fun c => c ≠ ':')).map Char.toLower))
  else if nl.isEmpty then none
  else some (String.mk (nl.map Char.toLower))

/-- `urlparse(url).hostname` for the cases exercised by this module: strip
the scheme, read the netloc only when the remainder starts with `//`, then
apply the `hostname` extraction. -/
def urlparse_hostname (url : String) : Option String :=
  match stripScheme url.toList with
  | '/' :: '/' :: rest => hostnameOfNetloc (splitnetloc rest)
  | _ => hostnameOfNetloc []

/-- One iteration of the loop in `get_hosts_from_sources`: parse the source
URL and, when it has a hostname, add it to the set (`hosts.add(...)`). -/
def hostsStep (hosts : List String) (source : Source) : List String :=
  match urlparse_hostname source.url with
  | some host => if host ∈ hosts then hosts else hosts ++ [host]
  | none => hosts

/-- `get_hosts_from_sources` (boot_images.py lines 39-46): the set of
hostnames contained in the given sources.  The Python function accumulates
into a `set`; the embedding accumulates into a duplicate-free list. -/
def get_hosts_from_sources (sources : List Source) : List String :=
  sources.foldl hostsStep []

/-! ### Process environment -/

/-- The process environment: a variable is either present with a value or
absent. -/
abbrev Env := String → Option String

/-- Set a variable (`os.environ[k] = v`). -/
def envSet (e : Env) (k v : String) : Env :=
  fun x => if x = k then some v else e x

/-- Restore a variable to a saved value-or-absence (`os.environ[k] = v` or
`del os.environ[k]`). -/
def envSetOpt (e : Env) (k : String) (v : Option String) : Env :=
  fun x => if x = k then v else e x

/-- Apply a list of overrides in order (`os.environ.update(variables)`). -/
def applyOverrides (vars : List (String × String)) (e : Env) : Env :=
  vars.foldl (fun e kv => envSet e kv.1 kv.2) e

/-- An import-images synchronization engine: runs against the current
environment, may mutate it, and either succeeds or raises.  The real engine
(`provisioningserver.import_images.boot_resources.import_images`) is an
external collaborator; theorems quantify over it. -/
abbrev Engine := List Source → Env → Except String Unit × Env

/-- Modelled from the spec: the Environment Scoping Guard
(`provisioningserver.utils.env.environment_variables`, not under the given
sources).  Per spec section 4.1 it applies each override, runs the operation,
and on every exit path restores the previous value, or absence, of exactly
the overridden variables; a variable absent before is removed, never set to
the empty string.  The operation's failure is a returned `Except.error`, so
restoration below happens on failure too. -/
def environment_variables (vars : List (String × String))
    (op : Env → Except String Unit × Env) (env : Env) :
    Except String Unit × Env :=
  let saved := vars.map (fun kv => (kv.1, env kv.1))
  let r := op (applyOverrides vars env)
  (r.1, saved.foldl (fun e kv => envSetOpt e kv.1 kv.2) r.2)

/-- The environment override map built by `_run_import` (boot_images.py
lines 55-65): always `GNUPGHOME` (the resolved credential home) and
`no_proxy` (loopback hosts plus the source hosts, comma-joined); `http_proxy`
and `https_proxy` only when the corresponding argument was given. -/
def run_import_variables (gpghome : String) (sources : List Source)
    (http_proxy https_proxy : Option String) : List (String × String) :=
  [("GNUPGHOME", gpghome)]
    ++ (match http_proxy with
        | some p => [("http_proxy", p)]
        | none => [])
    ++ (match https_proxy with
        | some p => [("https_proxy", p)]
        | none => [])
    ++ [("no_proxy",
          String.intercalate ","
            (["localhost", "127.0.0.1", "::1"] ++ get_hosts_from_sources sources))]

/-- `_run_import` (boot_images.py lines 49-67).  It first resolves the
credential home (`get_maas_user_gpghome()`, an external resolver whose
outcome is the `gpghome` parameter; a resolution failure propagates out of
the job before any environment change), builds the override map, and runs
the synchronization engine inside the environment guard.  In Python this
function is synchronous and is executed on a background thread. -/
def run_import (gpghome : Except String String) (engine : Engine)
    (sources : List Source) (http_proxy https_proxy : Option String)
    (env : Env) : Except String Unit × Env :=
  match gpghome with
  | Except.error e => (Except.error e, env)
  | Except.ok gh =>
      environment_variables
        (run_import_variables gh sources http_proxy https_proxy)
        (engine sources) env

/-! ### The facade state machine -/

/-- A background job scheduled by a winning `import_boot_images` call (the
argument tuple handed to `deferToThread(_run_import, ...)`); also serves as
the handle returned to the winning caller. -/
structure PendingJob where
  sources : List Source
  http_proxy : Option String
  https_proxy : Option String
  deriving Repr, DecidableEq

/-- The process-wide state visible to this module: the single-flight lock
(`concurrency.boot_images.locked`), the process environment, and the
scheduled-but-not-yet-completed background job, if any. -/
structure SysState where
  locked : Bool
  env : Env
  pending : Option PendingJob

/-- `import_boot_images` (boot_images.py lines 70-76), as one atomic
transition.  Modelled from the spec for the lock part
(`provisioningserver.concurrency` is not under the given sources): per spec
section 4.2 the transition to held and the scheduling of the operation are
atomic with respect to concurrent calls.  If the lock is free the call
acquires it, schedules `_run_import` on a background thread and returns the
handle; otherwise it falls through and returns Python `None`, modelled as
`none`. -/
def import_boot_images (sources : List Source)
    (http_proxy https_proxy : Option String) (s : SysState) :
    Option PendingJob × SysState :=
  if s.locked = false then
    let job : PendingJob := ⟨sources, http_proxy, https_proxy⟩
    (some job, { s with locked := true, pending := some job })
  else
    (none, s)

/-- Modelled from the spec: completion of the scheduled background job.  Per
spec sections 4.2 and 4.5, when the operation finishes — whether it completes
or throws — the lock transitions back to free unconditionally, and the
operation's outcome is captured on the job's handle (the first component of
the result). -/
def complete_pending_job (gpghome : Except String String) (engine : Engine)
    (s : SysState) : Option (Except String Unit) × SysState :=
  match s.pending with
  | none => (none, s)
  | some job =>
      let r := run_import gpghome engine job.sources job.http_proxy
        job.https_proxy s.env
      (some r.1, { locked := false, env := r.2, pending := none })

/-- `is_import_boot_images_running` (boot_images.py lines 79-81): the lock's
`locked` predicate, read without blocking and without mutation (the function
takes the state and returns a `Bool`; it does not produce a new state). -/
def is_import_boot_images_running (s : SysState) : Bool :=
  s.locked

/-- A boot-image descriptor as produced by the `tftppath` collaborator; the
exact fields are owned by that collaborator. -/
structure BootImage where
  architecture : String
  subarchitecture : String
  release : String
  label : String
  purpose : String
  deriving Repr, DecidableEq

/-- The `tftp` section of the configuration (`Config.load_from_cache()`),
read-only; only `resource_root` is consumed here. -/
structure TftpConfig where
  resource_root : String
  deriving Repr, DecidableEq

/-- `list_boot_images` (boot_images.py lines 33-36).  The directory lister
`tftppath.list_boot_images` is not under the given sources; modelled from the
spec as the parameter `list_images_at`, a read-only scan that returns an
empty sequence on an empty or just-initialized store.  The facade reads the
resource root from configuration and delegates; it neither reads nor writes
the lock or the environment, so the state is returned unchanged. -/
def list_boot_images (config : TftpConfig)
    (list_images_at : String → List BootImage) (s : SysState) :
    List BootImage × SysState :=
  (list_images_at config.resource_root, s)

/-- A fresh process state: lock free, empty environment, no pending job. -/
def freshState : SysState :=
  { locked := false, env := fun _ => none, pending := none }

/-- An engine that always succeeds and leaves the environment alone. -/
def okEngine : Engine := fun _ e => (Except.ok (), e)

end BootImages

/-! ### Helper lemmas -/

namespace BootImages

lemma hostsStep_mem (hosts : List String) (source : Source) (x : String) :
    x ∈ hostsStep hosts source ↔
      x ∈ hosts ∨ urlparse_hostname source.url = some x := by
  unfold hostsStep
  cases h : urlparse_hostname source.url with
  | none => simp
  | some host =>
    by_cases hm : host ∈ hosts
    · simp only [if_pos hm, Option.some.injEq]
      constructor
      · exact Or.inl
      · rintro (hx | rfl)
        · exact hx
        · exact hm
    · simp only [if_neg hm, List.mem_append, List.mem_singleton,
        Option.some.injEq, eq_comm]

lemma foldl_hostsStep_mem (sources : List Source) :
    ∀ (acc : List String) (x : String),
      x ∈ sources.foldl hostsStep acc ↔
        x ∈ acc ∨ ∃ src ∈ sources, urlparse_hostname src.url = some x := by
  induction sources with
  | nil => simp
  | cons s rest ih =>
    intro acc x
    rw [List.foldl_cons, ih, hostsStep_mem]
    simp only [List.mem_cons]
    constructor
    · rintro ((hx | hx) | ⟨src, hsrc, hx⟩)
      · exact Or.inl hx
      · exact Or.inr ⟨s, Or.inl rfl, hx⟩
      · exact Or.inr ⟨src, Or.inr hsrc, hx⟩
    · rintro (hx | ⟨src, (rfl | hsrc), hx⟩)
      · exact Or.inl (Or.inl hx)
      · exact Or.inl (Or.inr hx)
      · exact Or.inr ⟨src, hsrc, hx⟩

lemma hostsStep_nodup (hosts : List String) (source : Source)
    (h : hosts.Nodup) : (hostsStep hosts source).Nodup := by
  unfold hostsStep
  cases urlparse_hostname source.url with
  | none => exact h
  | some host =>
    by_cases hm : host ∈ hosts
    · simpa [hm] using h
    · simp only [if_neg hm, List.nodup_append, List.nodup_singleton,
        List.disjoint_singleton]
      exact ⟨h, trivial, hm⟩

lemma foldl_hostsStep_nodup (sources : List Source) :
    ∀ acc : List String, acc.Nodup → (sources.foldl hostsStep acc).Nodup := by
  induction sources with
  | nil => intro acc h; exact h
  | cons s rest ih =>
    intro acc h
    rw [List.foldl_cons]
    exact ih _ (hostsStep_nodup acc s h)

lemma foldl_envSetOpt_notmem :
    ∀ (l : List (String × Option String)) (e : Env) (k : String),
      k ∉ l.map Prod.fst →
      (l.foldl (fun e kv => envSetOpt e kv.1 kv.2) e) k = e k := by
  intro l
  induction l with
  | nil => intro e k _; rfl
  | cons p rest ih =>
    intro e k hk
    simp only [List.map_cons, List.mem_cons, not_or] at hk
    rw [List.foldl_cons, ih _ _ hk.2]
    simp [envSetOpt, hk.1]

lemma foldl_envSetOpt_mem :
    ∀ (l : List (String × Option String)) (e : Env) (k : String)
      (v : Option String),
      (∀ p ∈ l, p.1 = k → p.2 = v) → k ∈ l.map Prod.fst →
      (l.foldl (fun e kv => envSetOpt e kv.1 kv.2) e) k = v := by
  intro l
  induction l with
  | nil => intro e k v _ hk; simp at hk
  | cons p rest ih =>
    intro e k v hall hk
    by_cases hmem : k ∈ rest.map Prod.fst
    · exact ih _ _ _ (fun q hq => hall q (List.mem_cons_of_mem _ hq)) hmem
    · have hp1 : p.1 = k := by
        simp only [List.map_cons, List.mem_cons] at hk
        rcases hk with h | h
        · exact h.symm
        · exact absurd h hmem
      rw [List.foldl_cons, foldl_envSetOpt_notmem _ _ _ hmem]
      have : (envSetOpt e p.1 p.2) k = p.2 := by simp [envSetOpt, hp1]
      rw [this]
      exact hall p (List.mem_cons_self _ _) hp1

lemma environment_variables_restores (vars : List (String × String))
    (op : Env → Except String Unit × Env) (env : Env) (k : String)
    (hk : k ∈ vars.map Prod.fst) :
    (environment_variables vars op env).2 k = env k := by
  unfold environment_variables
  apply foldl_envSetOpt_mem
  · intro p hp hpk
    simp only [List.mem_map] at hp
    obtain ⟨kv, _, rfl⟩ := hp
    simp only at hpk
    rw [hpk]
  · simpa using hk

end BootImages

/-! ### Claim theorems -/

namespace BootImages

/-- C1: for every pair of concurrent `import_boot_images` calls issued while
the lock is free — modelled as two atomic trigger transitions interleaved in
either order (the quantification over both argument tuples covers both
orders) — exactly one caller wins: the first transition returns the handle,
atomically moves the lock to held and schedules the job, and the second
returns the skipped signal `none` and changes nothing. -/
theorem import_boot_images_mutual_exclusion
    (s : SysState) (hfree : s.locked = false)
    (src1 src2 : List Source) (hp1 hsp1 hp2 hsp2 : Option String) :
    (import_boot_images src1 hp1 hsp1 s).1 = some ⟨src1, hp1, hsp1⟩ ∧
    (import_boot_images src1 hp1 hsp1 s).2.locked = true ∧
    (import_boot_images src1 hp1 hsp1 s).2.pending = some ⟨src1, hp1, hsp1⟩ ∧
    (import_boot_images src2 hp2 hsp2
        (import_boot_images src1 hp1 hsp1 s).2).1 = none ∧
    (import_boot_images src2 hp2 hsp2
        (import_boot_images src1 hp1 hsp1 s).2).2 =
      (import_boot_images src1 hp1 hsp1 s).2 := by
  simp [import_boot_images, hfree]

/-- Witness for C1 at the fresh state with two concrete calls. -/
theorem import_boot_images_mutual_exclusion_witness :
    (import_boot_images [⟨"http://a.example"⟩] none none freshState).1 =
      some ⟨[⟨"http://a.example"⟩], none, none⟩ ∧
    (import_boot_images [⟨"http://a.example"⟩] none none freshState).2.locked = true ∧
    (import_boot_images [⟨"http://a.example"⟩] none none freshState).2.pending =
      some ⟨[⟨"http://a.example"⟩], none, none⟩ ∧
    (import_boot_images [⟨"http://b.example"⟩] none none
        (import_boot_images [⟨"http://a.example"⟩] none none freshState).2).1 = none ∧
    (import_boot_images [⟨"http://b.example"⟩] none none
        (import_boot_images [⟨"http://a.example"⟩] none none freshState).2).2 =
      (import_boot_images [⟨"http://a.example"⟩] none none freshState).2 :=
  import_boot_images_mutual_exclusion freshState rfl
    [⟨"http://a.example"⟩] [⟨"http://b.example"⟩] none none none none

/-- C2: when the lock is free and the synchronization engine always raises,
one `import_boot_images` call schedules the job; once the job completes, its
failure is captured on the handle, the lock is released
(`is_import_boot_images_running` is `false`), and any subsequent
`import_boot_images` call proceeds (is not skipped). -/
theorem import_failure_releases_lock
    (s : SysState) (hfree : s.locked = false)
    (gh msg : String) (engine : Engine)
    (heng : ∀ (srcs : List Source) (e : Env),
      (engine srcs e).1 = Except.error msg)
    (sources : List Source) (hp hsp : Option String) :
    (complete_pending_job (Except.ok gh) engine
        (import_boot_images sources hp hsp s).2).1 =
      some (Except.error msg) ∧
    is_import_boot_images_running
        (complete_pending_job (Except.ok gh) engine
          (import_boot_images sources hp hsp s).2).2 = false ∧
    ∀ (src2 : List Source) (hp2 hsp2 : Option String),
      (import_boot_images src2 hp2 hsp2
          (complete_pending_job (Except.ok gh) engine
            (import_boot_images sources hp hsp s).2).2).1.isSome = true := by
  refine ⟨?_, ?_, ?_⟩
  · simp [import_boot_images, complete_pending_job, run_import,
      environment_variables, hfree, heng]
  · simp [import_boot_images, complete_pending_job, run_import,
      environment_variables, hfree, is_import_boot_images_running]
  · intro src2 hp2 hsp2
    simp [import_boot_images, complete_pending_job, run_import,
      environment_variables, hfree]

/-- Witness for C2: a concrete always-raising engine at the fresh state. -/
theorem import_failure_releases_lock_witness :
    is_import_boot_images_running
        (complete_pending_job (Except.ok "gpg")
          (fun _ e => (Except.error "boom", e))
          (import_boot_images [] none none freshState).2).2 = false ∧
    (import_boot_images [] none none
        (complete_pending_job (Except.ok "gpg")
          (fun _ e => (Except.error "boom", e))
          (import_boot_images [] none none freshState).2).2).1.isSome = true :=
  ⟨(import_failure_releases_lock freshState rfl "gpg" "boom"
      (fun _ e => (Except.error "boom", e)) (fun _ _ => rfl) [] none none).2.1,
    (import_failure_releases_lock freshState rfl "gpg" "boom"
      (fun _ e => (Except.error "boom", e)) (fun _ _ => rfl) [] none none).2.2
      [] none none⟩

/-- C3: for every import job and every environment variable the job sets
(the keys of its override map: always `GNUPGHOME` and `no_proxy`,
`http_proxy`/`https_proxy` when provided), after the job completes the
variable holds its pre-job value again — the engine is arbitrary, so this
covers failing runs too, and equality of `Option String` values means a
variable absent before the job is absent (removed) after it, not set to the
empty string.  When the credential-home resolution itself fails, the job
sets nothing and the environment is untouched. -/
theorem run_import_restores_environment :
    (∀ (gh : String) (engine : Engine) (sources : List Source)
        (hp hsp : Option String) (env : Env) (k : String),
        k ∈ (run_import_variables gh sources hp hsp).map Prod.fst →
        (run_import (Except.ok gh) engine sources hp hsp env).2 k = env k) ∧
    (∀ (msg : String) (engine : Engine) (sources : List Source)
        (hp hsp : Option String) (env : Env),
        (run_import (Except.error msg) engine sources hp hsp env).2 = env) := by
  constructor
  · intro gh engine sources hp hsp env k hk
    unfold run_import
    exact environment_variables_restores _ _ env k hk
  · intro msg engine sources hp hsp env
    rfl

/-- Witness for C3: with `http_proxy` provided, an initially empty
environment, and a run of the job, `http_proxy` is afterwards absent again
(`none`), not the empty string. -/
theorem run_import_restores_environment_witness :
    "http_proxy" ∈
      (run_import_variables "gpg" [] (some "http://proxy.example") none).map
        Prod.fst ∧
    (run_import (Except.ok "gpg") okEngine [] (some "http://proxy.example")
        none (fun _ => none)).2 "http_proxy" = none :=
  ⟨by decide,
    run_import_restores_environment.1 "gpg" okEngine []
      (some "http://proxy.example") none (fun _ => none) "http_proxy"
      (by decide)⟩

/-- C4: every `import_boot_images` call made while the lock is held returns
the skipped signal `none` (a normal return value of the total transition
function, not an exception) and leaves the state exactly as it was: no job
is scheduled and nothing changes. -/
theorem import_boot_images_skips_when_locked
    (s : SysState) (hheld : s.locked = true)
    (sources : List Source) (hp hsp : Option String) :
    import_boot_images sources hp hsp s = (none, s) := by
  simp [import_boot_images, hheld]

/-- Witness for C4 at a concrete held state. -/
theorem import_boot_images_skips_when_locked_witness :
    import_boot_images [⟨"http://a.example"⟩] none none
        ⟨true, fun _ => none, none⟩ =
      (none, ⟨true, fun _ => none, none⟩) :=
  import_boot_images_skips_when_locked ⟨true, fun _ => none, none⟩ rfl
    [⟨"http://a.example"⟩] none none

/-- C5 counterexample: the claim that a credential-home resolution failure
surfaces synchronously to the trigger caller, before any background work is
scheduled, is false.  With the resolver failing (`Except.error
"unresolvable"`), the trigger call at the fresh state still returns a normal
handle (no synchronous error — the trigger transition does not consult the
resolver at all), background work is scheduled (`pending` is set), and the
resolution error appears only in the completed job's asynchronous outcome. -/
theorem credential_home_error_not_synchronous :
    (import_boot_images [] none none freshState).1.isSome = true ∧
    (import_boot_images [] none none freshState).2.pending.isSome = true ∧
    (complete_pending_job (Except.error "unresolvable") okEngine
        (import_boot_images [] none none freshState).2).1 =
      some (Except.error "unresolvable") :=
  ⟨rfl, rfl, rfl⟩

/-- C5 amended: for every call made while the lock is free with an
unresolvable credential home, the trigger call itself succeeds and returns a
handle; the resolution error surfaces asynchronously as the scheduled job's
outcome on that handle, the lock is released afterwards, and the environment
is left untouched by the failed job. -/
theorem credential_home_error_surfaces_in_handle
    (s : SysState) (hfree : s.locked = false) (msg : String)
    (engine : Engine) (sources : List Source) (hp hsp : Option String) :
    (import_boot_images sources hp hsp s).1.isSome = true ∧
    (complete_pending_job (Except.error msg) engine
        (import_boot_images sources hp hsp s).2).1 =
      some (Except.error msg) ∧
    (complete_pending_job (Except.error msg) engine
        (import_boot_images sources hp hsp s).2).2.locked = false ∧
    (complete_pending_job (Except.error msg) engine
        (import_boot_images sources hp hsp s).2).2.env = s.env := by
  refine ⟨?_, ?_, ?_, ?_⟩ <;>
    simp [import_boot_images, complete_pending_job, run_import, hfree]

/-- Witness for C5's amended claim at the fresh state. -/
theorem credential_home_error_surfaces_in_handle_witness :
    (import_boot_images [] none none freshState).1.isSome = true ∧
    (complete_pending_job (Except.error "unresolvable") okEngine
        (import_boot_images [] none none freshState).2).1 =
      some (Except.error "unresolvable") ∧
    (complete_pending_job (Except.error "unresolvable") okEngine
        (import_boot_images [] none none freshState).2).2.locked = false ∧
    (complete_pending_job (Except.error "unresolvable") okEngine
        (import_boot_images [] none none freshState).2).2.env = freshState.env :=
  credential_home_error_surfaces_in_handle freshState rfl "unresolvable"
    okEngine [] none none

end BootImages

namespace BootImages

/-- C6: the computed no-proxy host set (the loopback hosts prepended to
`get_hosts_from_sources`) contains exactly `localhost`, `127.0.0.1`, `::1`
and the hostnames of the source URLs that have a parseable hostname (URLs
without one contribute nothing); `get_hosts_from_sources` never contains
duplicates; membership is independent of source order; and for the sources
`http://a.example` and `http://b.example` the set is exactly
`localhost, 127.0.0.1, ::1, a.example, b.example`, duplicate-free. -/
theorem no_proxy_hosts_characterization :
    (∀ (sources : List Source) (x : String),
        x ∈ ["localhost", "127.0.0.1", "::1"] ++ get_hosts_from_sources sources ↔
          x ∈ (["localhost", "127.0.0.1", "::1"] : List String) ∨
            ∃ src ∈ sources, urlparse_hostname src.url = some x) ∧
    (∀ sources : List Source, (get_hosts_from_sources sources).Nodup) ∧
    (∀ l1 l2 : List Source, l1.Perm l2 →
        ∀ x : String,
          x ∈ get_hosts_from_sources l1 ↔ x ∈ get_hosts_from_sources l2) ∧
    (["localhost", "127.0.0.1", "::1"]
        ++ get_hosts_from_sources [⟨"http://a.example"⟩, ⟨"http://b.example"⟩] =
      ["localhost", "127.0.0.1", "::1", "a.example", "b.example"] ∧
      List.Nodup ["localhost", "127.0.0.1", "::1", "a.example", "b.example"]) := by
  refine ⟨?_, ?_, ?_, by decide, by decide⟩
  · intro sources x
    rw [List.mem_append]
    unfold get_hosts_from_sources
    rw [foldl_hostsStep_mem]
    simp
  · intro sources
    exact foldl_hostsStep_nodup sources [] List.nodup_nil
  · intro l1 l2 hperm x
    unfold get_hosts_from_sources
    rw [foldl_hostsStep_mem, foldl_hostsStep_mem]
    constructor
    · rintro (hx | ⟨src, hsrc, hx⟩)
      · exact Or.inl hx
      · exact Or.inr ⟨src, hperm.mem_iff.mp hsrc, hx⟩
    · rintro (hx | ⟨src, hsrc, hx⟩)
      · exact Or.inl hx
      · exact Or.inr ⟨src, hperm.mem_iff.mpr hsrc, hx⟩

/-- Witness for C6: order-independence applied to a concrete transposition
of the two example sources. -/
theorem no_proxy_hosts_characterization_witness :
    "b.example" ∈
        get_hosts_from_sources [⟨"http://a.example"⟩, ⟨"http://b.example"⟩] ↔
      "b.example" ∈
        get_hosts_from_sources [⟨"http://b.example"⟩, ⟨"http://a.example"⟩] :=
  no_proxy_hosts_characterization.2.2.1
    [⟨"http://a.example"⟩, ⟨"http://b.example"⟩]
    [⟨"http://b.example"⟩, ⟨"http://a.example"⟩]
    (List.Perm.swap (⟨"http://b.example"⟩ : Source)
      (⟨"http://a.example"⟩ : Source) [])
    "b.example"

/-- C7: the override map always contains `GNUPGHOME` (the credential home)
and `no_proxy` (the comma-joined host set), and contains
`http_proxy`/`https_proxy` exactly when the corresponding argument is
provided (`List.lookup` of either key equals the argument itself); with no
sources and no proxies the map is exactly `GNUPGHOME` plus
`no_proxy = "localhost,127.0.0.1,::1"`; and `import_boot_images []` with no
proxies at the fresh state runs to completion without error. -/
theorem run_import_variables_contents :
    (∀ (gh : String) (sources : List Source) (hp hsp : Option String),
        List.lookup "GNUPGHOME" (run_import_variables gh sources hp hsp) =
          some gh ∧
        List.lookup "no_proxy" (run_import_variables gh sources hp hsp) =
          some (String.intercalate ","
            (["localhost", "127.0.0.1", "::1"]
              ++ get_hosts_from_sources sources)) ∧
        List.lookup "http_proxy" (run_import_variables gh sources hp hsp) = hp ∧
        List.lookup "https_proxy" (run_import_variables gh sources hp hsp) =
          hsp) ∧
    (∀ gh : String, run_import_variables gh [] none none =
        [("GNUPGHOME", gh), ("no_proxy", "localhost,127.0.0.1,::1")]) ∧
    ((complete_pending_job (Except.ok "gpg") okEngine
        (import_boot_images [] none none freshState).2).1 =
      some (Except.ok ())) := by
  refine ⟨?_, fun gh => rfl, rfl⟩
  intro gh sources hp hsp
  cases hp <;> cases hsp <;> exact ⟨rfl, rfl, rfl, rfl⟩

/-- C8: `is_import_boot_images_running` is a pure query — it returns exactly
the lock's state and, taking the state to a `Bool` rather than a new state,
can neither mutate nor block; on fresh process state (lock free) it returns
`false` and a following `import_boot_images` call with any sources proceeds
(is not skipped). -/
theorem is_import_boot_images_running_spec :
    (∀ s : SysState, is_import_boot_images_running s = s.locked) ∧
    (∀ env : Env, is_import_boot_images_running ⟨false, env, none⟩ = false) ∧
    (∀ (env : Env) (sources : List Source) (hp hsp : Option String),
        (import_boot_images sources hp hsp ⟨false, env, none⟩).1.isSome =
          true) :=
  ⟨fun _ => rfl, fun _ => rfl, fun _ _ _ _ => rfl⟩

/-- C9: `list_boot_images` returns the state unchanged (no side effects),
its result does not depend on the state at all — in particular not on
whether an import is running — and with an empty or just-initialized store
(a lister returning nothing) it returns the empty sequence rather than
failing. -/
theorem list_boot_images_state_independent :
    (∀ (config : TftpConfig) (lister : String → List BootImage)
        (s : SysState), (list_boot_images config lister s).2 = s) ∧
    (∀ (config : TftpConfig) (lister : String → List BootImage)
        (s t : SysState),
        (list_boot_images config lister s).1 =
          (list_boot_images config lister t).1) ∧
    (∀ (config : TftpConfig) (s : SysState),
        (list_boot_images config (fun _ => []) s).1 = []) :=
  ⟨fun _ _ _ => rfl, fun _ _ _ _ => rfl, fun _ _ => rfl⟩

/-- C10: `import_boot_images` returns `none` (Python `None`, reached by the
implicit return when the `if not lock.locked` branch is not taken) exactly
when the call is skipped because the lock is held; a winning call returns
`some` handle — the very job scheduled by the call (`lock.run`'s result) —
so callers distinguish a skipped import from a started one by testing the
result against `None`. -/
theorem import_boot_images_none_iff_skipped
    (sources : List Source) (hp hsp : Option String) (s : SysState) :
    ((import_boot_images sources hp hsp s).1 = none ↔ s.locked = true) ∧
    (s.locked = false →
      (import_boot_images sources hp hsp s).1 =
          (import_boot_images sources hp hsp s).2.pending ∧
        (import_boot_images sources hp hsp s).1 = some ⟨sources, hp, hsp⟩) := by
  cases hb : s.locked <;> simp [import_boot_images, hb]

/-- Witness for C10 at the fresh state: the winning call's result is the
scheduled job's handle. -/
theorem import_boot_images_none_iff_skipped_witness :
    (import_boot_images [] none none freshState).1 =
        (import_boot_images [] none none freshState).2.pending ∧
      (import_boot_images [] none none freshState).1 = some ⟨[], none, none⟩ :=
  (import_boot_images_none_iff_skipped [] none none freshState).2 rfl

end BootImages
